import Mathlib

/-!
Shallow embedding of `src/vispy/visuals/graphs/layouts/force_directed.py`
(the force-directed graph-layout engine) and proofs about it.

Conventions of the embedding:

* numpy float arrays are modelled with exact rationals (`ℚ`); dtype
  conversions such as `astype('f32')` are modelled as value-preserving
  copies, and floating-point rounding is outside the model;
* `np.sqrt` is an external collaborator: the development is parametric in
  a square-root function `s : ℚ → ℚ`, and the concrete instances use
  `np_sqrt`, which returns the exact real square root on every input those
  instances reach;
* `rescale_layout` and `straight_line_vertices` are imported by the source
  from `vispy/visuals/graphs/util.py`, which is not part of the given
  sources; they are modelled from the spec (§4.5);
* a solver generator is modelled two ways: value-level, as the list of the
  snapshots it yields, and buffer-level, with an explicit heap of position
  buffers, which captures which arrays are shared and mutated in place.
-/

namespace ForceDirected

/-- Two-dimensional point (`self.dim = 2` in the source, line 34). -/
abbrev Vec2 : Type := ℚ × ℚ

/-- A position set: one 2-D point per node (`pos`, an `(N, 2)` array). -/
abbrev PosSet : Type := List Vec2

/-- Coordinate `d` of a 2-D point (axis `d` of the numpy arrays). -/
def coordAt (d : ℕ) (v : Vec2) : ℚ := if d = 0 then v.1 else v.2

/-- Entry `i` of a position array (`pos[i]`). -/
def getP (pos : PosSet) (i : ℕ) : Vec2 := pos.getD i (0, 0)

/-- Squared euclidean norm of a 2-D point, `(v**2).sum()`. -/
def norm2 (v : Vec2) : ℚ := v.1 * v.1 + v.2 * v.2

/-- Scalar times 2-D point. -/
def smul2 (c : ℚ) (v : Vec2) : Vec2 := (c * v.1, c * v.2)

/-- A 2-D numpy/scipy matrix: its shape plus an entry-reading function. -/
structure NDMatrix where
  rows : ℕ
  cols : ℕ
  entry : ℕ → ℕ → ℚ

/-- The adjacency argument of `__call__`: either a dense numpy array or a
SciPy sparse (row-addressable) matrix holding the same entries. -/
inductive AdjInput where
  | dense (m : NDMatrix)
  | sparse (m : NDMatrix)

/-- Python exceptions surfacing from the engine. -/
inductive PyErr where
  | valueError (msg : String)
  | attributeError (msg : String)

/-- The underlying entries/shape of the adjacency argument. -/
def AdjInput.mat : AdjInput → NDMatrix
  | .dense m => m
  | .sparse m => m

/-- Whether the adjacency argument is a SciPy sparse matrix. -/
def AdjInput.issparse : AdjInput → Bool
  | .dense _ => false
  | .sparse _ => true

/-- Line 153, `adjacency_mat.tolil()`: a SciPy sparse matrix converts to
its list-of-lists representation; a dense numpy array has no `tolil`
attribute, so the call raises `AttributeError`. -/
def AdjInput.tolil : AdjInput → Except PyErr NDMatrix
  | .dense _ => .error (.attributeError "ndarray object has no attribute tolil")
  | .sparse m => .ok m

/-- Modelled from the spec (§4.3 step 2, distance is a euclidean norm):
`np.sqrt` as evaluated at the concrete inputs of this file.  It returns
the exact real square root at each of the perfect-square rationals listed
(which is also the value floating-point `np.sqrt` returns there) and `0`
elsewhere.  Every universally quantified theorem below is parametric in
the square-root function; only the closed concrete instances evaluate
this one, and they reach only the listed inputs. -/
def np_sqrt (q : ℚ) : ℚ :=
  if q = 0 then 0
  else if q = 1 then 1
  else if q = 4 then 2
  else if q = 9 then 3
  else if q = 1/4 then 1/2
  else if q = 1/9 then 1/3
  else if q = 16/9 then 4/3
  else if q = 25/36 then 5/6
  else 0

/-- Edges of an adjacency matrix: ordered index pairs with nonzero weight. -/
def edgesOf (A : NDMatrix) : List (ℕ × ℕ) :=
  (List.range A.rows).flatMap fun i =>
    (List.range A.cols).filterMap fun j =>
      if A.entry i j ≠ 0 then some (i, j) else none

/-- Modelled from the spec (§4.5 `geometry_for`): `straight_line_vertices`
from `vispy/visuals/graphs/util.py` (not under `src/`) returns one
endpoint pair per edge at the current positions and, when `directed`, one
arrow-head vertex at each edge's target (an empty list otherwise). -/
def straight_line_vertices (A : NDMatrix) (pos : PosSet) (directed : Bool) :
    List (Vec2 × Vec2) × List Vec2 :=
  ((edgesOf A).map fun e => (getP pos e.1, getP pos e.2),
   if directed then (edgesOf A).map fun e => getP pos e.2 else [])

/-- Modelled from the spec (§4.5 `rescale_layout`, not under `src/`):
re-centre each axis on its mean and bound the point set to the unit box,
dividing by the largest absolute coordinate when that is nonzero.  The
transform is deterministic and order preserving as the spec requires. -/
def rescale_layout (pos : PosSet) : PosSet :=
  let n : ℚ := (pos.length : ℚ)
  let mx : ℚ := (pos.map Prod.fst).sum / n
  let my : ℚ := (pos.map Prod.snd).sum / n
  let centered : PosSet := pos.map fun v => (v.1 - mx, v.2 - my)
  let lim : ℚ := (centered.map fun v => max |v.1| |v.2|).foldr max 0
  if lim = 0 then centered else centered.map fun v => (v.1 / lim, v.2 / lim)

/-- Lines 122 / 187, `np.where(distance < 0.01, 0.01, distance)`. -/
def clampDist (d : ℚ) : ℚ := if d < 1/100 then 1/100 else d

/-- Lines 133 / 201, `np.where(length < 0.01, 0.1, length)`. -/
def clampLen (l : ℚ) : ℚ := if l < 1/100 then 1/10 else l

/-- Lines 120-122 / 185-187: clamped pairwise distance
`distance[x, y] = max(0.01, sqrt(((pos[x] - pos[y])**2).sum()))`. -/
def distanceM (s : ℚ → ℚ) (pos : PosSet) (x y : ℕ) : ℚ :=
  clampDist (s (norm2 (getP pos x - getP pos y)))

/-- The pairwise scalar force factor at matrix index `(x, y)`
(lines 126-128 / 193-195):
`optimal * optimal / distance**2 - adjacency[x, y] * distance / optimal`. -/
def forceFactor (s : ℚ → ℚ) (opt : ℚ) (A : NDMatrix) (pos : PosSet) (x y : ℕ) : ℚ :=
  opt * opt / distanceM s pos x y ^ 2 - A.entry x y * distanceM s pos x y / opt

/-- Lines 116-117: the pairwise difference tensor,
`delta[a, b, d] = pos[a, d] - pos[b, d]`. -/
def deltaT (pos : PosSet) (a b d : ℕ) : ℚ := coordAt d (getP pos a - getP pos b)

/-- Line 124-125: `np.transpose(delta)` reverses the axes, so
`np.transpose(delta)[d, x, y] = delta[y, x, d]`. -/
def denseTrans (pos : PosSet) (d x y : ℕ) : ℚ := deltaT pos y x d

/-- Lines 124-128: the broadcast product `np.transpose(delta) * force`
multiplies entry `[d, x, y]` of the transposed tensor with `force[x, y]`
(the trailing axes `(x, y)` of both operands are aligned). -/
def denseProd (s : ℚ → ℚ) (opt : ℚ) (A : NDMatrix) (pos : PosSet) (d x y : ℕ) : ℚ :=
  denseTrans pos d x y * forceFactor s opt A pos x y

/-- Lines 124-129: the outer `np.transpose` reverses the axes back, giving
an `(N, N, 2)` tensor again. -/
def denseBack (s : ℚ → ℚ) (opt : ℚ) (A : NDMatrix) (pos : PosSet) (a b d : ℕ) : ℚ :=
  denseProd s opt A pos d b a

/-- Lines 124-129 with `.sum(axis=1)`: net displacement of node `a`,
coordinate `d`, in the dense solver. -/
def denseDispCoord (s : ℚ → ℚ) (opt : ℚ) (A : NDMatrix) (pos : PosSet) (a d : ℕ) : ℚ :=
  ((List.range pos.length).map fun b => denseBack s opt A pos a b d).sum

/-- The displacement array of one dense-solver iteration (lines 114-129). -/
def denseDisplacement (s : ℚ → ℚ) (opt : ℚ) (A : NDMatrix) (pos : PosSet) : PosSet :=
  (List.range pos.length).map fun a =>
    (denseDispCoord s opt A pos a 0, denseDispCoord s opt A pos a 1)

/-- Lines 181-197 (sparse solver): for row `i`, `delta = (pos[i]-pos).T`,
`row = adjacency_mat.getrowview(i).toarray()`, and the column added into
`displacement[:, i]` is `(delta * (opt*opt/distance**2 - row*distance/opt)).sum(axis=1)`. -/
def sparseDispCoord (s : ℚ → ℚ) (opt : ℚ) (A : NDMatrix) (pos : PosSet) (i d : ℕ) : ℚ :=
  ((List.range pos.length).map fun j => deltaT pos i j d * forceFactor s opt A pos i j).sum

/-- The displacement array of one sparse-solver iteration (lines 177-197;
`displacement` is zeroed by `displacement *= 0` at the top of every
iteration, so each column is exactly the row sum of that iteration). -/
def sparseDisplacement (s : ℚ → ℚ) (opt : ℚ) (A : NDMatrix) (pos : PosSet) : PosSet :=
  (List.range A.rows).map fun i =>
    (sparseDispCoord s opt A pos i 0, sparseDispCoord s opt A pos i 1)

/-- Length of one displacement vector after the clamp (lines 132-133 /
200-201). -/
def lengthOf (s : ℚ → ℚ) (v : Vec2) : ℚ := clampLen (s (norm2 v))

/-- Lines 134 / 202: `delta_pos = displacement * t / length`, per node. -/
def delta_pos (s : ℚ → ℚ) (t : ℚ) (disp : PosSet) : PosSet :=
  disp.map fun v => smul2 (t / lengthOf s v) v

/-- One position update (lines 131-136 / 199-203): add the temperature
scaled displacement to the positions, then normalise via `rescale_layout`. -/
def stepPos (s : ℚ → ℚ) (dispFn : PosSet → PosSet) (t : ℚ) (pos : PosSet) : PosSet :=
  rescale_layout (List.zipWith (· + ·) pos (delta_pos s t (dispFn pos)))

/-- Lines 105 / 175: the per-iteration cooling decrement
`dt = t / float(iterations + 1)` with `t = 0.1`. -/
def coolingDt (iters : ℕ) : ℚ := (1/10) / ((iters : ℚ) + 1)

/-- One simulation iteration on the solver state (positions, temperature):
update the positions with the current temperature, then cool by `dt`
(lines 114-139 / 178-206). -/
def frStep (s : ℚ → ℚ) (dispFn : PosSet → PosSet) (dt : ℚ) :
    PosSet × ℚ → PosSet × ℚ :=
  fun st => (stepPos s dispFn st.2 st.1, st.2 - dt)

/-- Solver state after `m` iterations, starting from the initial positions
and the initial temperature `0.1` (lines 100 / 171). -/
def frStates (s : ℚ → ℚ) (dispFn : PosSet → PosSet) (dt : ℚ) (pos0 : PosSet)
    (m : ℕ) : PosSet × ℚ :=
  (frStep s dispFn dt)^[m] (pos0, 1/10)

/-- One yielded layout value: the tuple
`(node positions, line vertices, arrow vertices)`. -/
structure Snapshot where
  node_vertices : PosSet
  line_vertices : List (Vec2 × Vec2)
  arrows : List Vec2

/-- The snapshot emitted for a given position set (lines 94-96, 141-145 /
164-167, 208-212). -/
def snapshotOf (A : NDMatrix) (directed : Bool) (pos : PosSet) : Snapshot :=
  ⟨pos, (straight_line_vertices A pos directed).1,
        (straight_line_vertices A pos directed).2⟩

/-- The full list of snapshots one solver generator yields: the initial
positions, yielded before any update (lines 93-96 / 164-167), followed by
one snapshot per iteration of `for iteration in range(self.iterations)`. -/
def frRun (s : ℚ → ℚ) (dispFn : PosSet → PosSet) (A : NDMatrix) (directed : Bool)
    (iters : ℕ) (pos0 : PosSet) : List Snapshot :=
  (List.range (iters + 1)).map fun m =>
    snapshotOf A directed (frStates s dispFn (coolingDt iters) pos0 m).1

/-- The mutable attributes of a `fruchterman_reingold` instance
(`__init__`, lines 33-38; `dim` is fixed at 2 and inlined). -/
structure FRConfig where
  optimal : Option ℚ
  iterations : ℕ
  pos : Option PosSet
  num_nodes : Option ℕ

/-- Lines 81-82 / 149-150: when `self.optimal is None` it defaults to
`1 / np.sqrt(self.num_nodes)`. -/
def resolveOptimal (s : ℚ → ℚ) (cfg : FRConfig) : ℚ :=
  cfg.optimal.getD (1 / s ((cfg.num_nodes.getD 0 : ℕ) : ℚ))

/-- Lines 84-91 / 155-162: the working positions are a float32 copy of the
caller-supplied array, or freshly sampled random positions; the random
draw is supplied as an oracle argument `rand`. -/
def resolvePos (cfg : FRConfig) (rand : PosSet) : PosSet := cfg.pos.getD rand

/-- `_fruchterman_reingold`, the dense solver (lines 80-145), as the list
of yielded snapshots plus the updated instance attributes. -/
def fruchterman_reingold_dense (s : ℚ → ℚ) (cfg : FRConfig) (rand : PosSet)
    (Ain : AdjInput) (directed : Bool) : Except PyErr (List Snapshot) × FRConfig :=
  let opt := resolveOptimal s cfg
  (.ok (frRun s (denseDisplacement s opt Ain.mat) Ain.mat directed
          cfg.iterations (resolvePos cfg rand)),
   { cfg with optimal := some opt })

/-- `_sparse_fruchterman_reingold`, the sparse solver (lines 147-212).
The optimal distance is resolved and stored back on the instance (lines
149-150) before `tolil` runs (line 153), so a failing conversion still
updates the attribute; a dense array input fails here. -/
def fruchterman_reingold_sparse (s : ℚ → ℚ) (cfg : FRConfig) (rand : PosSet)
    (Ain : AdjInput) (directed : Bool) : Except PyErr (List Snapshot) × FRConfig :=
  let opt := resolveOptimal s cfg
  match Ain.tolil with
  | .error e => (.error e, { cfg with optimal := some opt })
  | .ok A =>
      (.ok (frRun s (sparseDisplacement s opt A) A directed
              cfg.iterations (resolvePos cfg rand)),
       { cfg with optimal := some opt })

/-- `__call__` (lines 40-78): raise `ValueError` unless the adjacency
matrix is square, record `num_nodes`, dispatch on `num_nodes < 500`, and
forward the chosen solver's yields verbatim. -/
def call (s : ℚ → ℚ) (cfg : FRConfig) (rand : PosSet) (Ain : AdjInput)
    (directed : Bool) : Except PyErr (List Snapshot) × FRConfig :=
  if Ain.mat.rows ≠ Ain.mat.cols then
    (.error (.valueError "Adjacency matrix should be square."), cfg)
  else
    let cfg1 := { cfg with num_nodes := some Ain.mat.rows }
    if Ain.mat.rows < 500 then fruchterman_reingold_sparse s cfg1 rand Ain directed
    else fruchterman_reingold_dense s cfg1 rand Ain directed

/-- Buffer-level state of one running solver generator: the heap of
allocated position buffers (an address is an index into the list), the
address the local variable `pos` is bound to, the addresses yielded so
far, and the temperature. -/
structure GenState where
  heap : List PosSet
  cur : ℕ
  snaps : List ℕ
  t : ℚ

/-- Contents of the buffer at address `a`. -/
def heapGet (h : List PosSet) (a : ℕ) : PosSet := h.getD a []

/-- Buffer-level model of one loop iteration (lines 114-145 / 178-212):
`pos += delta_pos` mutates, in place, the buffer `pos` is bound to, which
is exactly the buffer yielded with the previous snapshot;
`pos = rescale_layout(pos)` then rebinds `pos`, modelled as a fresh buffer
(the most copy-friendly reading of that collaborator), whose address is
yielded next. -/
def heapIter (s : ℚ → ℚ) (dispFn : PosSet → PosSet) (dt : ℚ) (st : GenState) :
    GenState :=
  let p := heapGet st.heap st.cur
  let updated := List.zipWith (· + ·) p (delta_pos s st.t (dispFn p))
  let mutated := st.heap.set st.cur updated
  ⟨mutated ++ [rescale_layout updated], mutated.length,
   st.snaps ++ [mutated.length], st.t - dt⟩

/-- Buffer-level initial state (lines 90-96 / 161-167): address 0 holds
the caller's array, `astype('f32')` copies it into a fresh buffer at
address 1, and that address is yielded as the initial snapshot before any
iteration runs. -/
def heapInit (callerPos : PosSet) : GenState :=
  ⟨[callerPos, callerPos], 1, [1], 1/10⟩

/-- Buffer-level generator state after `m` consumer advances past the
initial snapshot (i.e. after `m` loop iterations). -/
def heapState (s : ℚ → ℚ) (dispFn : PosSet → PosSet) (dt : ℚ) (p0 : PosSet)
    (m : ℕ) : GenState :=
  (heapIter s dispFn dt)^[m] (heapInit p0)

/-- Concrete 2-node positions used by the closed instances below. -/
def pos2 : PosSet := [(0, 0), (1, 0)]

/-- Concrete collinear 3-node positions (x-coordinates 0, 1, 3), chosen so
that every distance and displacement length is an exact perfect square. -/
def pos3 : PosSet := [(0, 0), (1, 0), (3, 0)]

/-- Concrete asymmetric 3×3 adjacency: a single directed edge 0 → 1. -/
def adj3 : NDMatrix := ⟨3, 3, fun i j => if i = 0 ∧ j = 1 then 1 else 0⟩

/-- The all-zero 2×2 adjacency. -/
def adj2zero : NDMatrix := ⟨2, 2, fun _ _ => 0⟩

/-- Symmetric 2×2 adjacency: one undirected edge between nodes 0 and 1. -/
def adj2sym : NDMatrix := ⟨2, 2, fun i j => if i + j = 1 then 1 else 0⟩

/-- The all-zero 4×4 adjacency. -/
def adj4zero : NDMatrix := ⟨4, 4, fun _ _ => 0⟩

/-- The dense displacement as claim C6 words it (spec §4.3 steps 3-4):
node `i`'s net displacement is the sum over `j` of `delta[i,j]` times the
per-pair force `optimal²/distance[i,j]² - adjacency[i,j]·distance[i,j]/optimal`,
with the adjacency weight read at `(i, j)`.  Stated from the claim's words,
to be compared against `denseDispCoord`, which embeds the source. -/
def claimDispCoordC6 (s : ℚ → ℚ) (opt : ℚ) (A : NDMatrix) (pos : PosSet)
    (i d : ℕ) : ℚ :=
  ((List.range pos.length).map fun j =>
    deltaT pos i j d * (opt * opt / distanceM s pos i j ^ 2 -
      A.entry i j * distanceM s pos i j / opt)).sum

/-- Every divisor appearing in one solver iteration's force and step
computations: per ordered index pair, the squared clamped distance (the
repulsion denominator, lines 126 / 194) and the optimal distance (the
attraction denominator, lines 127 / 195); per node, the clamped
displacement length (the step denominator, lines 134 / 202). -/
def stepDenoms (s : ℚ → ℚ) (opt : ℚ) (dispFn : PosSet → PosSet) (pos : PosSet) :
    List ℚ :=
  ((List.range pos.length).flatMap fun x =>
    (List.range pos.length).flatMap fun y =>
      [distanceM s pos x y ^ 2, opt]) ++ (dispFn pos).map (lengthOf s)

/-! Helper lemmas shared by the claim theorems. -/

theorem frStates_zero (s : ℚ → ℚ) (dispFn : PosSet → PosSet) (dt : ℚ)
    (pos0 : PosSet) : frStates s dispFn dt pos0 0 = (pos0, 1/10) := rfl

theorem frStates_succ (s : ℚ → ℚ) (dispFn : PosSet → PosSet) (dt : ℚ)
    (pos0 : PosSet) (m : ℕ) :
    frStates s dispFn dt pos0 (m + 1) =
      frStep s dispFn dt (frStates s dispFn dt pos0 m) := by
  unfold frStates
  exact Function.iterate_succ_apply' _ m _

/-- Closed form of the temperature component of the solver state. -/
theorem frStates_temp (s : ℚ → ℚ) (dispFn : PosSet → PosSet) (dt : ℚ)
    (pos0 : PosSet) (m : ℕ) :
    (frStates s dispFn dt pos0 m).2 = 1/10 - m * dt := by
  induction m with
  | zero => simp [frStates]
  | succ k ih =>
      rw [frStates_succ]
      simp only [frStep, ih]
      push_cast
      ring

theorem coolingDt_pos (iters : ℕ) : 0 < coolingDt iters := by
  unfold coolingDt
  positivity

theorem frRun_length (s : ℚ → ℚ) (dispFn : PosSet → PosSet) (A : NDMatrix)
    (directed : Bool) (iters : ℕ) (pos0 : PosSet) :
    (frRun s dispFn A directed iters pos0).length = iters + 1 := by
  simp [frRun]

theorem frRun_head (s : ℚ → ℚ) (dispFn : PosSet → PosSet) (A : NDMatrix)
    (directed : Bool) (iters : ℕ) (pos0 : PosSet) :
    (frRun s dispFn A directed iters pos0).head? =
      some (snapshotOf A directed pos0) := by
  rw [frRun, List.range_succ_eq_map]
  simp [frStates]

/-- Unfolding of `__call__` on a square adjacency: dispatch by size. -/
theorem call_square (s : ℚ → ℚ) (cfg : FRConfig) (rand : PosSet) (Ain : AdjInput)
    (directed : Bool) (hsq : Ain.mat.rows = Ain.mat.cols) :
    call s cfg rand Ain directed =
      if Ain.mat.rows < 500 then
        fruchterman_reingold_sparse s { cfg with num_nodes := some Ain.mat.rows }
          rand Ain directed
      else
        fruchterman_reingold_dense s { cfg with num_nodes := some Ain.mat.rows }
          rand Ain directed := by
  simp [call, hsq]

/-! Claim theorems. -/

/-- C2 (code bug): a square 2×2 dense numpy array, with all weights finite
and the shape check passing, is dispatched by size (2 < 500) to the sparse
solver, whose `adjacency_mat.tolil()` call raises `AttributeError` because
dense arrays have no such attribute; the computation errors before any
snapshot is produced, contradicting the claim that every square input
yields the snapshot sequence with no error. -/
theorem c2_square_dense_input_fails :
    call np_sqrt ⟨some 1, 50, some pos2, none⟩ [] (.dense adj2zero) false =
      (.error (.attributeError "ndarray object has no attribute tolil"),
       ⟨some 1, 50, some pos2, some 2⟩) := rfl

/-- C3 (amended): the claim holds for the square adjacency matrices given
in the representation that matches the size-based solver choice (sparse
for `N < 500`, dense otherwise): invocation with iteration budget `k`
produces exactly `k + 1` snapshots, and the first snapshot carries the
starting position set, emitted before any position update.  The claim as
frozen, quantified over every square input, is refuted by
`c3_no_sequence_for_dense_small` below: a square dense input with
`N < 500` produces no snapshot sequence at all (the `tolil` failure
recorded under C2). -/
theorem c3_snapshot_count (s : ℚ → ℚ) (cfg : FRConfig) (rand : PosSet)
    (Ain : AdjInput) (directed : Bool) (hsq : Ain.mat.rows = Ain.mat.cols)
    (hrep : Ain.issparse = true ↔ Ain.mat.rows < 500) :
    ∃ L : List Snapshot,
      (call s cfg rand Ain directed).1 = .ok L ∧
      L.length = cfg.iterations + 1 ∧
      L.head? = some (snapshotOf Ain.mat directed (resolvePos cfg rand)) := by
  cases Ain with
  | dense m =>
      simp only [AdjInput.issparse, Bool.false_eq_true, false_iff, Nat.not_lt] at hrep
      simp only [AdjInput.mat] at hsq hrep
      have hcall : (call s cfg rand (AdjInput.dense m) directed).1 =
          .ok (frRun s
                (denseDisplacement s
                  (resolveOptimal s { cfg with num_nodes := some m.rows }) m)
                m directed cfg.iterations (resolvePos cfg rand)) := by
        have hrep' : 500 ≤ m.cols := hsq ▸ hrep
        simp [call, fruchterman_reingold_dense, hsq, AdjInput.mat,
          Nat.not_lt.mpr hrep', resolvePos]
      exact ⟨_, hcall, frRun_length _ _ _ _ _ _, frRun_head _ _ _ _ _ _⟩
  | sparse m =>
      simp only [AdjInput.issparse, true_iff] at hrep
      simp only [AdjInput.mat] at hsq hrep
      have hcall : (call s cfg rand (AdjInput.sparse m) directed).1 =
          .ok (frRun s
                (sparseDisplacement s
                  (resolveOptimal s { cfg with num_nodes := some m.rows }) m)
                m directed cfg.iterations (resolvePos cfg rand)) := by
        have hrep' : m.cols < 500 := hsq ▸ hrep
        simp [call, fruchterman_reingold_sparse, hsq, AdjInput.mat, AdjInput.tolil,
          hrep', resolvePos]
      exact ⟨_, hcall, frRun_length _ _ _ _ _ _, frRun_head _ _ _ _ _ _⟩

/-- C3 (counterexample): the claim as stated is false.  The square dense
2×2 adjacency (a valid square adjacency matrix) with iteration budget 2
produces no snapshot sequence at all — the size-based dispatch sends it to
the sparse solver, whose `tolil()` call raises `AttributeError` — instead
of the claimed 3 snapshots headed by the starting position set. -/
theorem c3_no_sequence_for_dense_small :
    ¬ ∃ L : List Snapshot,
      (call np_sqrt ⟨some 1, 2, some pos2, none⟩ [] (.dense adj2zero) false).1 =
        .ok L := by
  rintro ⟨L, hL⟩
  rw [show (call np_sqrt ⟨some 1, 2, some pos2, none⟩ [] (.dense adj2zero) false).1 =
      .error (.attributeError "ndarray object has no attribute tolil") from rfl] at hL
  exact Except.noConfusion hL

/-- Witness for C3 (amended) at a concrete sparse 2×2 input with 2
iterations. -/
theorem c3_snapshot_count_witness :
    ∃ L : List Snapshot,
      (call np_sqrt ⟨some 1, 2, some pos2, none⟩ [] (.sparse adj2zero) false).1 = .ok L ∧
      L.length = (FRConfig.mk (some 1) 2 (some pos2) none).iterations + 1 ∧
      L.head? = some (snapshotOf (AdjInput.sparse adj2zero).mat false
        (resolvePos ⟨some 1, 2, some pos2, none⟩ [])) :=
  c3_snapshot_count np_sqrt ⟨some 1, 2, some pos2, none⟩ [] (.sparse adj2zero) false
    rfl (by norm_num [AdjInput.issparse, AdjInput.mat, adj2zero])

/-- C4: for a square adjacency of size `N`, `__call__` dispatches to the
sparse solver exactly when `N < 500` and to the dense solver otherwise,
and returns the chosen solver's snapshot sequence and attribute updates
verbatim. -/
theorem c4_dispatch (s : ℚ → ℚ) (cfg : FRConfig) (rand : PosSet) (Ain : AdjInput)
    (directed : Bool) (hsq : Ain.mat.rows = Ain.mat.cols) :
    call s cfg rand Ain directed =
      if Ain.mat.rows < 500 then
        fruchterman_reingold_sparse s { cfg with num_nodes := some Ain.mat.rows }
          rand Ain directed
      else
        fruchterman_reingold_dense s { cfg with num_nodes := some Ain.mat.rows }
          rand Ain directed := by
  simp [call, hsq]

/-- Witness for C4 at a concrete square sparse 2×2 input. -/
theorem c4_dispatch_witness :
    call np_sqrt ⟨some 1, 2, some pos2, none⟩ [] (.sparse adj2sym) false =
      if (AdjInput.sparse adj2sym).mat.rows < 500 then
        fruchterman_reingold_sparse np_sqrt
          { FRConfig.mk (some 1) 2 (some pos2) none with
            num_nodes := some (AdjInput.sparse adj2sym).mat.rows }
          [] (.sparse adj2sym) false
      else
        fruchterman_reingold_dense np_sqrt
          { FRConfig.mk (some 1) 2 (some pos2) none with
            num_nodes := some (AdjInput.sparse adj2sym).mat.rows }
          [] (.sparse adj2sym) false :=
  c4_dispatch np_sqrt ⟨some 1, 2, some pos2, none⟩ [] (.sparse adj2sym) false rfl

/-- C5: for every computation (either solver, any displacement function),
the temperature starts at 0.1, decreases by exactly `0.1 / (iterations+1)`
after each iteration, is monotonically non-increasing across the run,
stays strictly above one decrement before the final iteration, and after
the final iteration equals exactly one decrement of zero. -/
theorem c5_temperature (s : ℚ → ℚ) (dispFn : PosSet → PosSet) (pos0 : PosSet)
    (iters : ℕ) :
    (frStates s dispFn (coolingDt iters) pos0 0).2 = 1/10 ∧
    (∀ m : ℕ, (frStates s dispFn (coolingDt iters) pos0 (m + 1)).2 =
      (frStates s dispFn (coolingDt iters) pos0 m).2 - coolingDt iters) ∧
    (∀ m k : ℕ, m ≤ k →
      (frStates s dispFn (coolingDt iters) pos0 k).2 ≤
        (frStates s dispFn (coolingDt iters) pos0 m).2) ∧
    (∀ m : ℕ, m < iters →
      coolingDt iters < (frStates s dispFn (coolingDt iters) pos0 m).2) ∧
    (frStates s dispFn (coolingDt iters) pos0 iters).2 = coolingDt iters := by
  have hdt : 0 < coolingDt iters := coolingDt_pos iters
  have htemp := frStates_temp s dispFn (coolingDt iters) pos0
  refine ⟨by simp [frStates], ?_, ?_, ?_, ?_⟩
  · intro m
    rw [frStates_succ]
    simp [frStep]
  · intro m k hmk
    rw [htemp m, htemp k]
    have : (m : ℚ) ≤ (k : ℚ) := by exact_mod_cast hmk
    nlinarith
  · intro m hm
    rw [htemp m]
    have hm' : (m : ℚ) + 1 ≤ (iters : ℚ) := by exact_mod_cast hm
    have hd : coolingDt iters * ((iters : ℚ) + 1) = 1/10 := by
      unfold coolingDt
      field_simp
      ring
    have h1 : (0 : ℚ) < (iters : ℚ) - (m : ℚ) := by linarith
    nlinarith [mul_pos hdt h1]
  · rw [htemp iters]
    have hd : coolingDt iters * ((iters : ℚ) + 1) = 1/10 := by
      unfold coolingDt
      field_simp
      ring
    nlinarith

/-- Witness for C5: at 3 iterations the temperature after the first
iteration is still strictly above one decrement, and the inner hypotheses
are discharged at concrete indices. -/
theorem c5_temperature_witness :
    coolingDt 3 <
      (frStates np_sqrt (denseDisplacement np_sqrt 1 adj2zero) (coolingDt 3) pos2 1).2 :=
  (c5_temperature np_sqrt (denseDisplacement np_sqrt 1 adj2zero) pos2 3).2.2.2.1 1
    (by norm_num)

/-- C9: when a computation is invoked with the optimal distance unset, the
engine resolves it to `1 / sqrt(N)` for that computation's node count `N`:
the updated instance attribute records that value, and the emitted
sequence is the one obtained by setting `1 / sqrt(N)` explicitly. -/
theorem c9_default_optimal (s : ℚ → ℚ) (cfg : FRConfig) (rand : PosSet)
    (Ain : AdjInput) (directed : Bool) (hnone : cfg.optimal = none)
    (hsq : Ain.mat.rows = Ain.mat.cols) :
    (call s cfg rand Ain directed).2.optimal =
      some (1 / s ((Ain.mat.rows : ℕ) : ℚ)) ∧
    (call s cfg rand Ain directed).1 =
      (call s { cfg with optimal := some (1 / s ((Ain.mat.rows : ℕ) : ℚ)) }
        rand Ain directed).1 := by
  rw [call_square s cfg rand Ain directed hsq,
    call_square s { cfg with optimal := some (1 / s ((Ain.mat.rows : ℕ) : ℚ)) }
      rand Ain directed hsq]
  by_cases h5 : Ain.mat.rows < 500
  · simp only [h5, if_true]
    cases htl : Ain.tolil with
    | error e =>
        constructor <;>
          simp [fruchterman_reingold_sparse, htl, resolveOptimal, hnone]
    | ok A =>
        constructor <;>
          simp [fruchterman_reingold_sparse, htl, resolveOptimal, resolvePos, hnone]
  · simp only [h5, if_false]
    constructor <;>
      simp [fruchterman_reingold_dense, resolveOptimal, resolvePos, hnone]

/-- Witness for C9 at a concrete sparse 4×4 input with no optimal set. -/
theorem c9_default_optimal_witness :
    (call np_sqrt ⟨none, 2, some pos2, none⟩ [] (.sparse adj4zero) false).2.optimal =
      some (1 / np_sqrt (((AdjInput.sparse adj4zero).mat.rows : ℕ) : ℚ)) ∧
    (call np_sqrt ⟨none, 2, some pos2, none⟩ [] (.sparse adj4zero) false).1 =
      (call np_sqrt
        { FRConfig.mk none 2 (some pos2) none with
          optimal := some (1 / np_sqrt (((AdjInput.sparse adj4zero).mat.rows : ℕ) : ℚ)) }
        [] (.sparse adj4zero) false).1 :=
  c9_default_optimal np_sqrt ⟨none, 2, some pos2, none⟩ [] (.sparse adj4zero) false
    rfl rfl

/-- The clamped distance is symmetric in its two indices, for any
square-root function, because the squared difference is. -/
theorem distanceM_symm (s : ℚ → ℚ) (pos : PosSet) (x y : ℕ) :
    distanceM s pos x y = distanceM s pos y x := by
  unfold distanceM
  congr 2
  simp only [norm2, Prod.fst_sub, Prod.snd_sub]
  ring

/-- C6 (amended): in every dense-solver iteration, node `i`'s net
displacement is the sum over `j` of `delta[i,j]` times the per-pair force
`optimal²/distance[i,j]² - adjacency[j,i]·distance[i,j]/optimal` — the
adjacency weight enters at the transposed index `(j, i)`, because the
broadcast `np.transpose(delta) * force` pairs `delta[i,j,:]` with
`force[j,i]`; the distance factors are unaffected since the clamped
distance matrix is symmetric.  The distance and length clamps and the
`displacement·t/length` step are as the claim states them (they are
`distanceM`, `lengthOf` and `delta_pos` in this file). -/
theorem c6_dense_displacement_formula (s : ℚ → ℚ) (opt : ℚ) (A : NDMatrix)
    (pos : PosSet) (a d : ℕ) :
    denseDispCoord s opt A pos a d =
      ((List.range pos.length).map fun b =>
        deltaT pos a b d * (opt * opt / distanceM s pos a b ^ 2 -
          A.entry b a * distanceM s pos a b / opt)).sum := by
  unfold denseDispCoord
  refine congrArg List.sum (List.map_congr_left ?_)
  intro b _
  show denseBack s opt A pos a b d = _
  unfold denseBack denseProd denseTrans forceFactor
  rw [distanceM_symm s pos b a]

/-- C6 (counterexample): the claim as stated is false.  With the
asymmetric adjacency `adj3` (single directed edge 0 → 1), collinear
positions `pos3` and optimal distance 1, the dense solver's displacement
of node 0 along axis 0 is `-4/3`, while the claimed formula (adjacency
weight read at `(i, j)`) gives `-1/3`. -/
theorem c6_claimed_formula_differs :
    denseDispCoord np_sqrt 1 adj3 pos3 0 0 ≠ claimDispCoordC6 np_sqrt 1 adj3 pos3 0 0 := by
  norm_num [denseDispCoord, claimDispCoordC6, denseBack, denseProd, denseTrans,
    forceFactor, deltaT, coordAt, getP, distanceM, clampDist, norm2, np_sqrt,
    adj3, pos3, List.range_succ, List.getD]

theorem clampDist_pos (d : ℚ) : 0 < clampDist d := by
  unfold clampDist
  split
  · norm_num
  · rename_i h
    push_neg at h
    linarith

theorem clampLen_pos (l : ℚ) : 0 < clampLen l := by
  unfold clampLen
  split
  · norm_num
  · rename_i h
    push_neg at h
    linarith

/-- Every entry of `stepDenoms` is nonzero once the optimal distance is:
the distance and length floors keep the other divisors positive. -/
theorem stepDenoms_ne_zero (s : ℚ → ℚ) (opt : ℚ) (dispFn : PosSet → PosSet)
    (pos : PosSet) (q : ℚ) (hopt : opt ≠ 0)
    (hq : q ∈ stepDenoms s opt dispFn pos) : q ≠ 0 := by
  unfold stepDenoms at hq
  rcases List.mem_append.mp hq with h | h
  · simp only [List.mem_flatMap, List.mem_cons, List.mem_singleton,
      List.not_mem_nil, or_false] at h
    obtain ⟨x, -, y, -, hmem⟩ := h
    rcases hmem with rfl | rfl
    · exact pow_ne_zero 2 (ne_of_gt (clampDist_pos _))
    · exact hopt
  · obtain ⟨v, -, rfl⟩ := List.mem_map.mp h
    exact ne_of_gt (clampLen_pos _)

/-- C8 (amended): in every iteration of either solver (any displacement
function, in particular `denseDisplacement` and `sparseDisplacement`),
every divisor of the force and step computations at the current solver
state is nonzero, provided the optimal distance is nonzero (the default
`1/sqrt(N)` always is): the 0.01 floors on pairwise distance and on
displacement length keep those divisions well defined, so in the exact
model every emitted coordinate is a well-defined (finite) rational. -/
theorem c8_step_divisors_nonzero (s : ℚ → ℚ) (opt : ℚ)
    (dispFn : PosSet → PosSet) (dt : ℚ) (pos0 : PosSet) (m : ℕ) (q : ℚ)
    (hopt : opt ≠ 0)
    (hq : q ∈ stepDenoms s opt dispFn (frStates s dispFn dt pos0 m).1) :
    q ≠ 0 :=
  stepDenoms_ne_zero s opt dispFn _ q hopt hq

/-- Witness for C8 at a concrete input: the squared clamped distance
between the two nodes of `pos2` is among the divisors of the first
iteration and is indeed nonzero. -/
theorem c8_step_divisors_nonzero_witness :
    distanceM np_sqrt pos2 0 1 ^ 2 ≠ 0 :=
  c8_step_divisors_nonzero np_sqrt 1 (sparseDisplacement np_sqrt 1 adj2zero)
    (coolingDt 1) pos2 0 (distanceM np_sqrt pos2 0 1 ^ 2) (by norm_num)
    (by norm_num [stepDenoms, frStates, pos2, List.range_succ])

/-- C8 (counterexample): the claim as stated is false.  A computation with
all weights finite and non-negative (the all-zero 2×2 adjacency) but with
the optimal distance set to 0 divides by zero in the attraction term
`adjacency*distance/optimal` (in numpy this makes the positions NaN): 0 is
among the divisors of its first iteration, and no 0.01 floor protects it. -/
theorem c8_zero_optimal_divisor :
    (0 : ℚ) ∈ stepDenoms np_sqrt 0 (denseDisplacement np_sqrt 0 adj2zero)
      (frStates np_sqrt (denseDisplacement np_sqrt 0 adj2zero) (coolingDt 1) pos2 0).1 := by
  norm_num [stepDenoms, frStates, pos2, List.range_succ]

/-- The pairwise force factor is symmetric whenever the adjacency is. -/
theorem forceFactor_symm (s : ℚ → ℚ) (opt : ℚ) (A : NDMatrix) (pos : PosSet)
    (hsym : ∀ i j, A.entry i j = A.entry j i) (x y : ℕ) :
    forceFactor s opt A pos x y = forceFactor s opt A pos y x := by
  unfold forceFactor
  rw [distanceM_symm s pos x y, hsym x y]

/-- With a symmetric adjacency (and matching shapes) the sparse row-wise
displacement equals the dense broadcast displacement. -/
theorem sparse_dense_disp_eq (s : ℚ → ℚ) (opt : ℚ) (M : NDMatrix)
    (hsym : ∀ i j, M.entry i j = M.entry j i) (pos : PosSet)
    (hlen : pos.length = M.rows) :
    sparseDisplacement s opt M pos = denseDisplacement s opt M pos := by
  unfold sparseDisplacement denseDisplacement
  rw [← hlen]
  refine List.map_congr_left ?_
  intro i _
  have hc : ∀ d, sparseDispCoord s opt M pos i d = denseDispCoord s opt M pos i d := by
    intro d
    unfold sparseDispCoord denseDispCoord
    refine congrArg List.sum (List.map_congr_left ?_)
    intro j _
    show _ = denseBack s opt M pos i j d
    unfold denseBack denseProd denseTrans
    rw [forceFactor_symm s opt M pos hsym i j]
  rw [hc 0, hc 1]

theorem rescale_layout_length (pos : PosSet) :
    (rescale_layout pos).length = pos.length := by
  simp only [rescale_layout]
  split <;> simp

theorem denseDisplacement_length (s : ℚ → ℚ) (opt : ℚ) (A : NDMatrix)
    (pos : PosSet) : (denseDisplacement s opt A pos).length = pos.length := by
  simp [denseDisplacement]

theorem stepPos_length (s : ℚ → ℚ) (dispFn : PosSet → PosSet) (t : ℚ)
    (pos : PosSet) :
    (stepPos s dispFn t pos).length = min pos.length (dispFn pos).length := by
  simp [stepPos, rescale_layout_length, delta_pos]

/-- With a symmetric adjacency the two solvers pass through identical
states, and the positions keep their length. -/
theorem frStates_sparse_eq_dense (s : ℚ → ℚ) (opt : ℚ) (M : NDMatrix)
    (hsym : ∀ i j, M.entry i j = M.entry j i) (pos0 : PosSet)
    (hlen : pos0.length = M.rows) (dt : ℚ) (m : ℕ) :
    frStates s (sparseDisplacement s opt M) dt pos0 m =
      frStates s (denseDisplacement s opt M) dt pos0 m ∧
    (frStates s (denseDisplacement s opt M) dt pos0 m).1.length = M.rows := by
  induction m with
  | zero =>
      constructor
      · unfold frStates
        rw [Function.iterate_zero_apply, Function.iterate_zero_apply]
      · unfold frStates
        rw [Function.iterate_zero_apply]
        exact hlen
  | succ k ih =>
      rw [frStates_succ, frStates_succ, ih.1]
      have hl := ih.2
      constructor
      · have hd := sparse_dense_disp_eq s opt M hsym
          (frStates s (denseDisplacement s opt M) dt pos0 k).1 hl
        simp only [frStep, stepPos, hd]
      · simp [frStep, stepPos_length, denseDisplacement_length, hl]

/-- C7 (amended): given the same adjacency — presented sparse to the one,
dense to the other — the same initial positions (of matching length), the
same optimal distance and the same iteration budget, the sparse and the
dense solver emit identical snapshot sequences whenever the adjacency is
symmetric (undirected weights); for asymmetric adjacency they may differ,
because the dense broadcast applies the force factor at transposed
adjacency indices (see C6). -/
theorem c7_sparse_dense_equivalent (s : ℚ → ℚ) (cfg : FRConfig) (rand : PosSet)
    (M : NDMatrix) (directed : Bool)
    (hsym : ∀ i j, M.entry i j = M.entry j i)
    (hlen : (resolvePos cfg rand).length = M.rows) :
    fruchterman_reingold_sparse s cfg rand (.sparse M) directed =
      fruchterman_reingold_dense s cfg rand (.dense M) directed := by
  unfold fruchterman_reingold_sparse fruchterman_reingold_dense
  simp only [AdjInput.tolil, AdjInput.mat]
  have hrun : frRun s (sparseDisplacement s (resolveOptimal s cfg) M) M directed
      cfg.iterations (resolvePos cfg rand) =
      frRun s (denseDisplacement s (resolveOptimal s cfg) M) M directed
        cfg.iterations (resolvePos cfg rand) := by
    unfold frRun
    refine List.map_congr_left ?_
    intro m _
    rw [(frStates_sparse_eq_dense s (resolveOptimal s cfg) M hsym _ hlen _ m).1]
  rw [hrun]

/-- Witness for C7 (amended) at a concrete symmetric 2-node input. -/
theorem c7_sparse_dense_equivalent_witness :
    fruchterman_reingold_sparse np_sqrt ⟨some 1, 1, some pos2, some 2⟩ []
        (.sparse adj2sym) false =
      fruchterman_reingold_dense np_sqrt ⟨some 1, 1, some pos2, some 2⟩ []
        (.dense adj2sym) false :=
  c7_sparse_dense_equivalent np_sqrt ⟨some 1, 1, some pos2, some 2⟩ [] adj2sym false
    (fun i j => by
      show (if i + j = 1 then (1 : ℚ) else 0) = (if j + i = 1 then (1 : ℚ) else 0)
      rw [Nat.add_comm])
    rfl

/-- C7 (counterexample): the claim as stated is false.  On the asymmetric
adjacency `adj3` (one directed edge 0 → 1, weight 1), identical initial
positions `pos3`, optimal distance 1 and one iteration, the two solvers
emit different sequences: after the first iteration the sparse solver
places node 0 at x = -11/13 while the dense solver places it at x = -7/9. -/
theorem c7_sequences_differ :
    (fruchterman_reingold_sparse np_sqrt ⟨some 1, 1, some pos3, some 3⟩ []
        (.sparse adj3) false).1 ≠
      (fruchterman_reingold_dense np_sqrt ⟨some 1, 1, some pos3, some 3⟩ []
        (.dense adj3) false).1 := by
  have hsd : sparseDisplacement np_sqrt 1 adj3 pos3 =
      [(-(1/3), 0), (1/2, 0), (5/6, 0)] := by
    norm_num [sparseDisplacement, sparseDispCoord, deltaT, coordAt, getP,
      forceFactor, distanceM, clampDist, norm2, np_sqrt, adj3, pos3,
      List.range_succ, List.getD]
  have hdd : denseDisplacement np_sqrt 1 adj3 pos3 =
      [(-(4/3), 0), (-(1/2), 0), (5/6, 0)] := by
    norm_num [denseDisplacement, denseDispCoord, denseBack, denseProd, denseTrans,
      deltaT, coordAt, getP, forceFactor, distanceM, clampDist, norm2, np_sqrt,
      adj3, pos3, List.range_succ, List.getD]
  have hss : stepPos np_sqrt (sparseDisplacement np_sqrt 1 adj3) (1/10) pos3 =
      [(-(11/13), 0), (-(2/13), 0), (1, 0)] := by
    unfold stepPos
    rw [hsd]
    norm_num [delta_pos, lengthOf, clampLen, smul2, norm2, np_sqrt,
      pos3, rescale_layout, Function.comp, abs_of_nonneg, max_def]
  have hsd' : stepPos np_sqrt (denseDisplacement np_sqrt 1 adj3) (1/10) pos3 =
      [(-(7/9), 0), (-(2/9), 0), (1, 0)] := by
    unfold stepPos
    rw [hdd]
    norm_num [delta_pos, lengthOf, clampLen, smul2, norm2, np_sqrt,
      pos3, rescale_layout, Function.comp, abs_of_nonneg, max_def]
  have hedges : edgesOf adj3 = [(0, 1)] := by
    norm_num [edgesOf, adj3, List.range_succ, List.filterMap_cons]
  norm_num [fruchterman_reingold_sparse, fruchterman_reingold_dense, AdjInput.tolil,
    AdjInput.mat, resolveOptimal, resolvePos, frRun, frStates, frStep, hss, hsd',
    snapshotOf, straight_line_vertices, hedges, coolingDt, getP, List.getD,
    List.range_succ, Function.iterate_one]

/-! Buffer-level lemmas for the aliasing claims. -/

theorem heapState_succ (s : ℚ → ℚ) (dispFn : PosSet → PosSet) (dt : ℚ)
    (p0 : PosSet) (m : ℕ) :
    heapState s dispFn dt p0 (m + 1) =
      heapIter s dispFn dt (heapState s dispFn dt p0 m) := by
  unfold heapState
  exact Function.iterate_succ_apply' _ m _

/-- The buffer `pos` is bound to after `m` iterations has address `m + 1`,
and the heap then holds `m + 2` buffers. -/
theorem heapState_cur_length (s : ℚ → ℚ) (dispFn : PosSet → PosSet) (dt : ℚ)
    (p0 : PosSet) (m : ℕ) :
    (heapState s dispFn dt p0 m).cur = m + 1 ∧
    (heapState s dispFn dt p0 m).heap.length = m + 2 := by
  induction m with
  | zero => exact ⟨rfl, rfl⟩
  | succ k ih =>
      rw [heapState_succ]
      constructor <;>
        simp [heapIter, List.length_set, List.length_append, ih.2]

/-- The addresses yielded after `m` iterations are `1, 2, ..., m + 1` in
order: snapshot `i` exposes the buffer at address `i + 1`. -/
theorem heapState_snaps (s : ℚ → ℚ) (dispFn : PosSet → PosSet) (dt : ℚ)
    (p0 : PosSet) (m : ℕ) :
    (heapState s dispFn dt p0 m).snaps =
      (List.range (m + 1)).map (· + 1) := by
  induction m with
  | zero => rfl
  | succ k ih =>
      rw [heapState_succ]
      simp [heapIter, ih, List.length_set, (heapState_cur_length s dispFn dt p0 k).2,
        List.range_succ]

theorem heapGet_set_ne (h : List PosSet) (i j : ℕ) (x : PosSet) (hij : i ≠ j) :
    heapGet (h.set i x) j = heapGet h j := by
  simp [heapGet, List.getD_eq_getElem?_getD, List.getElem?_set_ne hij]

theorem heapGet_set_eq (h : List PosSet) (i : ℕ) (x : PosSet) (hi : i < h.length) :
    heapGet (h.set i x) i = x := by
  simp [heapGet, List.getD_eq_getElem?_getD, List.getElem?_set_eq hi]

theorem heapGet_append_left (h tail : List PosSet) (j : ℕ) (hj : j < h.length) :
    heapGet (h ++ tail) j = heapGet h j := by
  simp [heapGet, List.getD_eq_getElem?_getD, List.getElem?_append_left hj]

/-- C10: the caller-supplied position array (address 0) is never written
by either solver — they work on the fresh `astype('f32')` copy — so it
holds its original values after any number of iterations, whether the
computation completes or is abandoned early.  The displacement function is
arbitrary, so this covers the dense and the sparse solver alike. -/
theorem c10_caller_array_unchanged (s : ℚ → ℚ) (dispFn : PosSet → PosSet)
    (dt : ℚ) (p0 : PosSet) (m : ℕ) :
    heapGet (heapState s dispFn dt p0 m).heap 0 = p0 := by
  induction m with
  | zero => rfl
  | succ k ih =>
      rw [heapState_succ]
      have hc := heapState_cur_length s dispFn dt p0 k
      show heapGet (heapIter s dispFn dt (heapState s dispFn dt p0 k)).heap 0 = p0
      rw [heapIter]
      rw [heapGet_append_left _ _ 0 (by simp [List.length_set, hc.2]),
        heapGet_set_ne _ _ _ _ (by omega)]
      exact ih

/-- C1 (amended): no per-iteration copy protects a yielded snapshot.  The
buffer exposed with snapshot `m` (address `m + 1`) is the very buffer the
solver increments in place with `pos += delta_pos` during iteration
`m + 1`; after any later advance its contents are the snapshot's positions
plus that iteration's `delta_pos`, not the positions that were yielded. -/
theorem c1_snapshot_buffer_mutated (s : ℚ → ℚ) (dispFn : PosSet → PosSet)
    (dt : ℚ) (p0 : PosSet) (m k : ℕ) (hmk : m < k) :
    heapGet (heapState s dispFn dt p0 k).heap (m + 1) =
      List.zipWith (· + ·) (heapGet (heapState s dispFn dt p0 m).heap (m + 1))
        (delta_pos s (heapState s dispFn dt p0 m).t
          (dispFn (heapGet (heapState s dispFn dt p0 m).heap (m + 1)))) := by
  induction k with
  | zero => omega
  | succ j ih =>
      have hc := heapState_cur_length s dispFn dt p0 j
      rcases Nat.lt_succ_iff_lt_or_eq.mp hmk with hlt | heq
      · rw [heapState_succ, heapIter]
        rw [heapGet_append_left _ _ (m + 1) (by simp [List.length_set, hc.2]; omega),
          heapGet_set_ne _ _ _ _ (by omega)]
        exact ih hlt
      · subst heq
        rw [heapState_succ, heapIter, hc.1]
        rw [heapGet_append_left _ _ (m + 1) (by simp [List.length_set, hc.2]),
          heapGet_set_eq _ _ _ (by omega)]

/-- Witness for C1 (amended) at a concrete input: snapshot 0 of a 2-node
sparse computation, observed after one further advance. -/
theorem c1_snapshot_buffer_mutated_witness :
    heapGet (heapState np_sqrt (sparseDisplacement np_sqrt 1 adj2zero)
        (coolingDt 1) pos2 1).heap (0 + 1) =
      List.zipWith (· + ·)
        (heapGet (heapState np_sqrt (sparseDisplacement np_sqrt 1 adj2zero)
          (coolingDt 1) pos2 0).heap (0 + 1))
        (delta_pos np_sqrt
          (heapState np_sqrt (sparseDisplacement np_sqrt 1 adj2zero)
            (coolingDt 1) pos2 0).t
          (sparseDisplacement np_sqrt 1 adj2zero
            (heapGet (heapState np_sqrt (sparseDisplacement np_sqrt 1 adj2zero)
              (coolingDt 1) pos2 0).heap (0 + 1)))) :=
  c1_snapshot_buffer_mutated np_sqrt (sparseDisplacement np_sqrt 1 adj2zero)
    (coolingDt 1) pos2 0 1 (by norm_num)

/-- C1 (counterexample): the claim as stated is false.  In a concrete
2-node computation (zero adjacency, optimal 1, one iteration) the buffer
yielded with the initial snapshot — address 1, holding `[(0,0), (1,0)]`
when yielded — no longer holds those positions once the consumer advances
the sequence: the solver has mutated it in place. -/
theorem c1_retained_snapshot_changes :
    heapGet (heapState np_sqrt (sparseDisplacement np_sqrt 1 adj2zero)
      (coolingDt 1) pos2 1).heap 1 ≠ pos2 := by
  norm_num [heapState, Function.iterate_one, heapIter, heapInit, heapGet,
    sparseDisplacement, sparseDispCoord, deltaT, coordAt, getP, forceFactor,
    distanceM, clampDist, norm2, np_sqrt, adj2zero, pos2, delta_pos, lengthOf,
    clampLen, smul2, List.range_succ, List.getD]

end ForceDirected
